import Mathlib

/-!
# Verification of the Repertoire Raycast extension core

Shallow embedding of the data-handling logic of the `repertoire` repository:

* `src/scrape-musicalifeiten.tsx` — the scrape command: prompt construction
  (`aiPrompt`), the AI-response parsing pipeline (`parseStage`, modelling the
  `JSON.parse` / regex-extraction fallback), the wrap-and-ship logic
  (`processAIResponse`), and the toast messages shown to the user (`toastOf`).
* `src/browse-collection.ts` — `browseBackendUrl`.
* the web-UI search form (`webui/static` JavaScript) — `searchRecordings`,
  together with a spec-modelled backend filter (`queryRecordings`), since the
  Flask backend itself is not part of the sources.

JavaScript `JSON.parse` is modelled by `jsonParse`, an executable JSON reader
over `List Char` (ECMA-404 grammar: literals, numbers, strings with escapes,
arrays, objects).  Numbers are represented exactly as rationals rather than as
IEEE-754 doubles; none of the theorems below depend on number values.
`JSON.stringify` of the request body is abstracted by carrying the `Json`
value itself as the body of the modelled HTTP request.
-/

namespace Repertoire

/-- A JSON value, as produced by the modelled `JSON.parse`. -/
inductive Json where
  | null
  | bool (b : Bool)
  | num (q : Rat)
  | str (s : String)
  | arr (elems : List Json)
  | obj (fields : List (String × Json))

/-- The double-quote character `"`. -/
def quoteChar : Char := Char.ofNat 34

/-- The backslash character. -/
def backslashChar : Char := Char.ofNat 92

/-- Skip JSON insignificant whitespace (space, tab, newline, carriage return). -/
def skipWs : List Char → List Char
  | [] => []
  | c :: rest =>
    if c = ' ' ∨ c = '\t' ∨ c = '\n' ∨ c = '\r' then skipWs rest else c :: rest

/-- Value of a hexadecimal digit, if the character is one. -/
def hexVal (c : Char) : Option Nat :=
  if c.isDigit then some (c.toNat - 48)
  else if 'a' ≤ c ∧ c ≤ 'f' then some (c.toNat - 87)
  else if 'A' ≤ c ∧ c ≤ 'F' then some (c.toNat - 55)
  else none

/-- Body of a JSON string literal (after the opening quote): unescapes the
usual `\` escapes, rejects raw control characters, and returns the decoded
string together with the input remaining after the closing quote. -/
def parseStringBody (acc : List Char) : List Char → Option (String × List Char)
  | [] => none
  | c :: rest =>
    if c = quoteChar then some (String.mk acc.reverse, rest)
    else if c = backslashChar then
      match rest with
      | [] => none
      | e :: rest2 =>
        if e = quoteChar then parseStringBody (quoteChar :: acc) rest2
        else if e = backslashChar then parseStringBody (backslashChar :: acc) rest2
        else if e = '/' then parseStringBody ('/' :: acc) rest2
        else if e = 'n' then parseStringBody ('\n' :: acc) rest2
        else if e = 't' then parseStringBody ('\t' :: acc) rest2
        else if e = 'r' then parseStringBody ('\r' :: acc) rest2
        else if e = 'b' then parseStringBody (Char.ofNat 8 :: acc) rest2
        else if e = 'f' then parseStringBody (Char.ofNat 12 :: acc) rest2
        else if e = 'u' then
          match rest2 with
          | h1 :: h2 :: h3 :: h4 :: rest3 =>
            match hexVal h1, hexVal h2, hexVal h3, hexVal h4 with
            | some a, some b, some c2, some d =>
              parseStringBody (Char.ofNat (((a * 16 + b) * 16 + c2) * 16 + d) :: acc) rest3
            | _, _, _, _ => none
          | _ => none
        else none
    else if c.toNat < 32 then none
    else parseStringBody (c :: acc) rest

/-- Natural number denoted by a list of decimal digit characters. -/
def digitsToNat (ds : List Char) : Nat :=
  ds.foldl (fun n c => 10 * n + (c.toNat - 48)) 0

/-- Exact rational value of a JSON number with the given sign, integer-part
digits and fraction-part digits (before any exponent). -/
def ratOfParts (neg : Bool) (intDigits fracDigits : List Char) : Rat :=
  let m : Rat := (digitsToNat (intDigits ++ fracDigits) : Nat)
  let base := m / ((10 : Rat) ^ fracDigits.length)
  if neg then -base else base

/-- Consume an optional `e`/`E` exponent suffix and scale the value
accordingly.  A malformed exponent is left unconsumed (the stray characters
then make the enclosing parse fail, as in `JSON.parse`). -/
def parseExponent (q : Rat) (input : List Char) : Rat × List Char :=
  match input with
  | [] => (q, input)
  | e :: r =>
    if e = 'e' ∨ e = 'E' then
      let (expNeg, r2) :=
        match r with
        | [] => (false, r)
        | s :: rr => if s = '-' then (true, rr) else if s = '+' then (false, rr) else (false, r)
      match r2.span Char.isDigit with
      | ([], _) => (q, input)
      | (eds, rest) =>
        (if expNeg then q / ((10 : Rat) ^ digitsToNat eds)
         else q * ((10 : Rat) ^ digitsToNat eds), rest)
    else (q, input)

/-- Parse the optional fraction and exponent that may follow the integer part
of a JSON number. -/
def numTail (neg : Bool) (intDigits : List Char) (afterInt : List Char) :
    Option (Rat × List Char) :=
  match afterInt with
  | [] => some (ratOfParts neg intDigits [], [])
  | d :: r2 =>
    if d = '.' then
      match r2.span Char.isDigit with
      | ([], _) => none
      | (ds, rest) => some (parseExponent (ratOfParts neg intDigits ds) rest)
    else some (parseExponent (ratOfParts neg intDigits []) afterInt)

/-- Parse a JSON number (optional minus sign, integer part with no leading
zeros, optional fraction, optional exponent). -/
def parseNumber (input : List Char) : Option (Rat × List Char) :=
  let (neg, afterSign) :=
    match input with
    | [] => (false, input)
    | c :: r => if c = '-' then (true, r) else (false, input)
  match afterSign with
  | [] => none
  | c :: r =>
    if c = '0' then numTail neg [c] r
    else if c.isDigit then
      let (ds, rest) := r.span Char.isDigit
      numTail neg (c :: ds) rest
    else none

mutual

/-- Parse one JSON value from the input, fuel-indexed (the fuel bounds the
nesting depth; `jsonParse` supplies enough for any input). -/
def parseValue : Nat → List Char → Option (Json × List Char)
  | 0, _ => none
  | fuel + 1, input =>
    match skipWs input with
    | [] => none
    | c :: rest =>
      if c = 'n' then
        match rest with
        | 'u' :: 'l' :: 'l' :: r => some (Json.null, r)
        | _ => none
      else if c = 't' then
        match rest with
        | 'r' :: 'u' :: 'e' :: r => some (Json.bool true, r)
        | _ => none
      else if c = 'f' then
        match rest with
        | 'a' :: 'l' :: 's' :: 'e' :: r => some (Json.bool false, r)
        | _ => none
      else if c = quoteChar then
        (parseStringBody [] rest).map (fun p => (Json.str p.1, p.2))
      else if c = '[' then
        match skipWs rest with
        | [] => none
        | c2 :: r2 =>
          if c2 = ']' then some (Json.arr [], r2)
          else (parseItems fuel (c2 :: r2)).map (fun p => (Json.arr p.1, p.2))
      else if c = '\x7b' then
        match skipWs rest with
        | [] => none
        | c2 :: r2 =>
          if c2 = '\x7d' then some (Json.obj [], r2)
          else (parseFields fuel (c2 :: r2)).map (fun p => (Json.obj p.1, p.2))
      else if c = '-' ∨ c.isDigit then
        (parseNumber (c :: rest)).map (fun p => (Json.num p.1, p.2))
      else none
termination_by structural fuel _ => fuel

/-- Parse the comma-separated elements of a non-empty JSON array, up to and
including the closing `]`. -/
def parseItems : Nat → List Char → Option (List Json × List Char)
  | 0, _ => none
  | fuel + 1, input =>
    match parseValue fuel input with
    | none => none
    | some (v, rest) =>
      match skipWs rest with
      | [] => none
      | c :: rest2 =>
        if c = ',' then
          match parseItems fuel rest2 with
          | some (vs, rest3) => some (v :: vs, rest3)
          | none => none
        else if c = ']' then some ([v], rest2)
        else none
termination_by structural fuel _ => fuel

/-- Parse the comma-separated `"key": value` members of a non-empty JSON
object, up to and including the closing brace. -/
def parseFields : Nat → List Char → Option (List (String × Json) × List Char)
  | 0, _ => none
  | fuel + 1, input =>
    match skipWs input with
    | [] => none
    | c :: rest =>
      if c = quoteChar then
        match parseStringBody [] rest with
        | none => none
        | some (k, rest2) =>
          match skipWs rest2 with
          | [] => none
          | c2 :: rest3 =>
            if c2 = ':' then
              match parseValue fuel rest3 with
              | none => none
              | some (v, rest4) =>
                match skipWs rest4 with
                | [] => none
                | c3 :: rest5 =>
                  if c3 = ',' then
                    match parseFields fuel rest5 with
                    | some (fs, rest6) => some ((k, v) :: fs, rest6)
                    | none => none
                  else if c3 = '\x7d' then some ([(k, v)], rest5)
                  else none
            else none
      else none
termination_by structural fuel _ => fuel

end

/-- Model of JavaScript `JSON.parse`: parse the whole string as one JSON
value (allowing surrounding whitespace); `none` models a thrown
`SyntaxError`. -/
def jsonParse (s : String) : Option Json :=
  let cs := s.toList
  match parseValue (2 * cs.length + 2) cs with
  | some (v, rest) => if (skipWs rest).isEmpty then some v else none
  | none => none

/-!
## The scrape command (`src/scrape-musicalifeiten.tsx`)
-/

/-- The span matched by `response.match(/\[[\s\S]*\]/)` at the list level:
the greedy regex matches from the first `[` in the input through the last
`]`, provided some `]` occurs after the first `[`; otherwise there is no
match. -/
def bracketSpan (cs : List Char) : Option (List Char) :=
  let fromFirst := cs.dropWhile (fun c => c ≠ '[')
  let kept := (fromFirst.reverse.dropWhile (fun c => c ≠ ']')).reverse
  if kept.isEmpty then none else some kept

/-- Model of `jsonMatch`: the substring of `s` matched by the regex
`/\[[\s\S]*\]/`, if any. -/
def bracketMatch (s : String) : Option String :=
  (bracketSpan s.toList).map String.mk

/-- How the parsing phase of `processAIResponse` can fail.
`noJson` is the explicitly thrown
`Could not parse AI response as JSON. Raw response: ...` error (carrying its
message); `innerSyntax` is the `SyntaxError` thrown by `JSON.parse` on the
regex-extracted substring (its engine-specific message text is not
modelled). -/
inductive ParseErr where
  | noJson (message : String)
  | innerSyntax
deriving DecidableEq

/-- The parsing phase of `processAIResponse`: try `JSON.parse` on the whole
response; on failure extract the `/\[[\s\S]*\]/` match and `JSON.parse` that;
if there is no match, throw the diagnostic error carrying the response
truncated to 200 characters (`response.substring(0, 200)`). -/
def parseStage (response : String) : Except ParseErr Json :=
  match jsonParse response with
  | some v => Except.ok v
  | none =>
    match bracketMatch response with
    | some m =>
      match jsonParse m with
      | some v => Except.ok v
      | none => Except.error ParseErr.innerSyntax
    | none =>
      Except.error (ParseErr.noJson
        ("Could not parse AI response as JSON. Raw response: " ++ response.take 200))

/-- The `if (!Array.isArray(parsedRecordings)) parsedRecordings =
[parsedRecordings]` step: a parsed array is used as is; any other parsed
value is wrapped in a one-element list. -/
def jsArrayOf : Json → List Json
  | Json.arr l => l
  | v => [v]

/-- The POST request sent to the backend.  `JSON.stringify` of the request
body is abstracted by carrying the `Json` value itself. -/
structure SentRequest where
  url : String
  body : Json

/-- Style of a Raycast toast (`Toast.Style`). -/
inductive ToastStyle where
  | success
  | failure
deriving DecidableEq

/-- A toast notification shown to the user. -/
structure ToastMsg where
  style : ToastStyle
  title : String
  message : String

/-- The terminal state of one `processAIResponse` run.  Every path of the
source function ends in exactly one of these (all errors are caught by the
surrounding `try`/`catch`, so the function itself never throws):

* `saved n` — the backend call succeeded and the success toast reports `n`
  recordings saved;
* `noRecordings` — the parsed list was empty (`parsedRecordings.length ===
  0`): error message set, failure toast, early return before any backend
  call;
* `parseFailure msg` — neither direct parse nor regex extraction found JSON:
  the thrown diagnostic error (message `msg`) was caught;
* `innerSyntaxFailure` — `JSON.parse` failed on the regex-extracted
  substring: the engine's `SyntaxError` was caught;
* `backendFailure status text` — the backend responded non-ok: the thrown
  `Backend error` was caught. -/
inductive Outcome where
  | saved (count : Nat)
  | noRecordings
  | parseFailure (message : String)
  | innerSyntaxFailure
  | backendFailure (status : Nat) (errorText : String)
deriving DecidableEq

/-- The toast shown for each outcome, as written in the source (success path
and the `catch`/early-return paths).  The message of `innerSyntaxFailure` is
the JS engine's `SyntaxError` text, which is not modelled. -/
def toastOf : Outcome → ToastMsg
  | Outcome.saved n =>
    ⟨ToastStyle.success, "Success!",
      "Saved " ++ toString n ++ " recording(s) to database"⟩
  | Outcome.noRecordings =>
    ⟨ToastStyle.failure, "No recordings extracted",
      "The AI couldn\x27t find any classical music recordings on this page"⟩
  | Outcome.parseFailure msg => ⟨ToastStyle.failure, "Error", msg.take 100⟩
  | Outcome.innerSyntaxFailure => ⟨ToastStyle.failure, "Error", ""⟩
  | Outcome.backendFailure status text =>
    ⟨ToastStyle.failure, "Error",
      ("Backend error (" ++ toString status ++ "): " ++ text).take 100⟩

/-- Result of one `processAIResponse` run: the request sent to the backend
(if the run reached the `fetch`), the recordings put into component state by
`setRecordings` (if reached), and the terminal outcome. -/
structure ProcessResult where
  sent : Option SentRequest
  recordings : List Json
  outcome : Outcome

/-- Model of `processAIResponse` from `src/scrape-musicalifeiten.tsx`, with the
backend's reply supplied as parameters (`backendOk` is `response_data.ok`;
`backendStatus` / `backendErrorText` are its status and body, used only when
not ok).  Parse the response (`parseStage`), wrap a non-array value
(`jsArrayOf`), return early on an empty list, otherwise POST
`{ recordings: parsedRecordings }` to `backendUrl ++ "/api/recordings"` and
report `Saved n recording(s)` on success. -/
def processAIResponse (backendUrl : String) (backendOk : Bool)
    (backendStatus : Nat) (backendErrorText : String)
    (response : String) : ProcessResult :=
  match parseStage response with
  | Except.error (ParseErr.noJson msg) => ⟨none, [], Outcome.parseFailure msg⟩
  | Except.error ParseErr.innerSyntax => ⟨none, [], Outcome.innerSyntaxFailure⟩
  | Except.ok v =>
    let recs := jsArrayOf v
    if recs.length = 0 then ⟨none, [], Outcome.noRecordings⟩
    else
      let req : SentRequest :=
        ⟨backendUrl ++ "/api/recordings", Json.obj [("recordings", Json.arr recs)]⟩
      if backendOk then ⟨some req, recs, Outcome.saved recs.length⟩
      else ⟨some req, recs, Outcome.backendFailure backendStatus backendErrorText⟩

/-- The fixed part of the `useAI` prompt, up to the interpolated HTML
content. -/
def promptText (content : String) : String :=
  "Extract classical music recording information from the following HTML content. \n    Return ONLY a valid JSON array with objects containing these fields: composer, work, performers (as array of strings), label, catalogNumber, releaseYear (as number), and notes.\n    If no recordings are found, return an empty array [].\n    Do NOT include markdown, code blocks, or any explanation.\n    \n    HTML Content:\n    "
    ++ content

/-- The prompt handed to `useAI`:
`htmlData ? htmlData.substring(0, 3000) : "Loading..."` — the fetched HTML
truncated to its first 3000 characters when present (JS truthiness: an empty
string also falls back), else the `"Loading..."` placeholder. -/
def aiPrompt (htmlData : Option String) : String :=
  promptText
    (match htmlData with
     | some h => if h = "" then "Loading..." else h.take 3000
     | none => "Loading...")

/-- JavaScript `pref || default` for the string preference `backendUrl`:
an absent or empty (falsy) preference falls back to the default. -/
def jsOrDefault (pref : Option String) (dflt : String) : String :=
  match pref with
  | none => dflt
  | some s => if s = "" then dflt else s

/-- Backend URL used by the scrape command
(`preferences.backendUrl || "http://localhost:5173"`). -/
def scrapeBackendUrl (pref : Option String) : String :=
  jsOrDefault pref "http://localhost:5173"

/-- Backend URL used by the browse-collection command
(`preferences.backendUrl || "http://localhost:5000"`). -/
def browseBackendUrl (pref : Option String) : String :=
  jsOrDefault pref "http://localhost:5000"

/-!
## The query stage (web-UI search)

The search form's JavaScript (in the sources) sends only the non-empty
filter fields as query parameters; the Flask handler for
`GET /api/recordings` is not part of the sources, so its filter semantics
are modelled from the spec.
-/

/-- A recording as served by the query endpoint, with its joined composer /
work / label strings (the fields the three filters apply to). -/
structure StoredRecording where
  composer : String
  work : String
  label : String
deriving DecidableEq

/-- Decide whether `needle` occurs as a contiguous
substring of the second list. -/
def containsSub (needle : List Char) : List Char → Bool
  | [] => needle.isEmpty
  | c :: rest => needle.isPrefixOf (c :: rest) || containsSub needle rest

/-- Modelled from the spec: one filter of the backend query stage (the Flask
`GET /api/recordings` handler is not under the sources).  A supplied filter
is a case-insensitive substring match; an absent filter imposes no
constraint. -/
def filterMatches (filt : Option String) (field : String) : Bool :=
  match filt with
  | none => true
  | some f => containsSub (f.toList.map Char.toLower) (field.toList.map Char.toLower)

/-- Modelled from the spec: the backend query stage — the supplied filters
are ANDed together over the stored recordings. -/
def queryRecordings (db : List StoredRecording)
    (composer work label : Option String) : List StoredRecording :=
  db.filter (fun r =>
    filterMatches composer r.composer && filterMatches work r.work &&
      filterMatches label r.label)

/-- The search form's parameter construction (`if (composer)
params.append('composer', composer)`): an empty input field contributes no
query parameter. -/
def paramOfField (s : String) : Option String :=
  if s = "" then none else some s

/-- Model of `searchRecordings` from the web UI: read the three filter fields, send the
non-empty ones as query parameters, and display what the (spec-modelled)
backend returns. -/
def searchRecordings (db : List StoredRecording)
    (composerField workField labelField : String) : List StoredRecording :=
  queryRecordings db (paramOfField composerField) (paramOfField workField)
    (paramOfField labelField)


/-!
## Helper lemmas
-/

/-- Dropping while a predicate holds skips over a prefix on which it holds
everywhere. -/
theorem dropWhile_append_of_all (p : Char → Bool) (pre rest : List Char)
    (h : ∀ x ∈ pre, p x = true) :
    (pre ++ rest).dropWhile p = rest.dropWhile p := by
  induction pre with
  | nil => rfl
  | cons a t ih =>
    have ha : p a = true := h a (List.mem_cons_self a t)
    simp only [List.cons_append, List.dropWhile_cons, ha, if_true]
    exact ih (fun x hx => h x (List.mem_cons_of_mem a hx))

/-- On an input decomposed around its first occurrence of a left bracket and
its last occurrence of a right bracket, `bracketSpan` returns exactly the
span between and including them — the greedy-regex semantics of
`/\[[\s\S]*\]/`. -/
theorem bracketSpan_decomp (pre mid post : List Char)
    (hpre : ('[' : Char) ∉ pre) (hpost : (']' : Char) ∉ post) :
    bracketSpan (pre ++ '[' :: (mid ++ ']' :: post)) =
      some ('[' :: (mid ++ [']'])) := by
  have h1 : (pre ++ '[' :: (mid ++ ']' :: post)).dropWhile (fun c => c ≠ '[') =
      '[' :: (mid ++ ']' :: post) := by
    rw [dropWhile_append_of_all]
    · simp [List.dropWhile_cons]
    · intro x hx
      simp only [decide_eq_true_eq]
      exact fun hcontra => hpre (hcontra ▸ hx)
  have h2 : ('[' :: (mid ++ ']' :: post)).reverse =
      post.reverse ++ ']' :: (mid.reverse ++ ['[']) := by
    simp [List.reverse_cons, List.reverse_append, List.append_assoc]
  have h3 : (post.reverse ++ ']' :: (mid.reverse ++ ['['])).dropWhile
      (fun c => c ≠ ']') = ']' :: (mid.reverse ++ ['[']) := by
    rw [dropWhile_append_of_all]
    · simp [List.dropWhile_cons]
    · intro x hx
      simp only [decide_eq_true_eq]
      exact fun hcontra => hpost (hcontra ▸ (List.mem_reverse.mp hx))
  simp only [bracketSpan, h1, h2, h3]
  simp [List.reverse_cons, List.reverse_append]

/-- Correctness of the substring test: `containsSub` decides the sublist
(infix) relation. -/
theorem containsSub_iff (n h : List Char) : containsSub n h = true ↔ n <:+: h := by
  induction h with
  | nil => simp [containsSub, List.isEmpty_iff]
  | cons c t ih =>
    simp [containsSub, Bool.or_eq_true, List.isPrefixOf_iff_prefix, ih,
      List.infix_cons_iff]

/-!
## The claims
-/

/-- C1, counterexample: the claim says an element lacking a non-empty
`composer` or `work` is dropped, not sent to be persisted, and excluded from
the reported save count.  In the code there is no such validation: the AI
response `[{}]` parses to a one-element list whose only element has neither
field, yet a request carrying exactly that element is POSTed and the success
toast reports `Saved 1 recording(s)`. -/
theorem claim_C1_counterexample :
    (processAIResponse "http://localhost:5173" true 200 "" "[\x7b\x7d]").sent =
      some ⟨"http://localhost:5173/api/recordings",
        Json.obj [("recordings", Json.arr [Json.obj []])]⟩
    ∧ (processAIResponse "http://localhost:5173" true 200 "" "[\x7b\x7d]").outcome =
      Outcome.saved 1 :=
  ⟨rfl, rfl⟩

/-- C1, amended: no per-element validation is performed — every element of a
successfully parsed non-empty candidate list, whether or not it has non-empty
`composer` and `work` fields, is sent to the backend, and the save count
reported on success is the full parsed-list length. -/
theorem claim_C1_amended (u : String) (st : Nat) (tx : String)
    (response : String) (l : List Json)
    (hp : parseStage response = Except.ok (Json.arr l)) (hne : l ≠ []) :
    (processAIResponse u true st tx response).sent =
      some ⟨u ++ "/api/recordings", Json.obj [("recordings", Json.arr l)]⟩
    ∧ (processAIResponse u true st tx response).outcome =
      Outcome.saved l.length := by
  unfold processAIResponse
  rw [hp]
  have h0 : l.length ≠ 0 := by simpa [List.length_eq_zero] using hne
  simp [jsArrayOf, h0]

/-- C1, witness for the amended claim at the counterexample input `[{}]`. -/
theorem claim_C1_amended_witness :
    parseStage "[\x7b\x7d]" = Except.ok (Json.arr [Json.obj []])
    ∧ ([Json.obj []] ≠ ([] : List Json))
    ∧ (processAIResponse "http://localhost:5000" true 200 "" "[\x7b\x7d]").sent =
        some ⟨"http://localhost:5000/api/recordings",
          Json.obj [("recordings", Json.arr [Json.obj []])]⟩
    ∧ (processAIResponse "http://localhost:5000" true 200 "" "[\x7b\x7d]").outcome =
        Outcome.saved 1 :=
  ⟨rfl, by simp,
    (claim_C1_amended "http://localhost:5000" 200 "" "[\x7b\x7d]" [Json.obj []]
      rfl (by simp)).1,
    (claim_C1_amended "http://localhost:5000" 200 "" "[\x7b\x7d]" [Json.obj []]
      rfl (by simp)).2⟩

/-- C2, counterexample: the claim says ingesting an empty array yields a
success response reporting 0 saved.  In the code the empty parsed list takes
the early-return path: no request is sent (zero rows written, as claimed),
but the user sees a failure-style toast (`No recordings extracted`) and an
error message — not a success reporting 0 saved. -/
theorem claim_C2_counterexample :
    (processAIResponse "http://localhost:5173" true 200 "" "[]").sent = none
    ∧ (processAIResponse "http://localhost:5173" true 200 "" "[]").outcome =
      Outcome.noRecordings
    ∧ (toastOf Outcome.noRecordings).style = ToastStyle.failure
    ∧ (processAIResponse "http://localhost:5173" true 200 "" "[]").outcome ≠
      Outcome.saved 0 :=
  ⟨rfl, rfl, rfl, by decide⟩

/-- C2, amended: a response parsing to the empty array writes zero rows (the
run ends before any backend call) and ends in the dedicated `noRecordings`
outcome, whose toast (`No recordings extracted`) is distinct from the hard
parse failure toast (`Error`) — but it is surfaced as a failure toast, not as
a success reporting 0 saved. -/
theorem claim_C2_amended (u : String) (ok : Bool) (st : Nat) (tx : String) :
    (processAIResponse u ok st tx "[]").sent = none
    ∧ (processAIResponse u ok st tx "[]").outcome = Outcome.noRecordings
    ∧ (toastOf Outcome.noRecordings).style = ToastStyle.failure
    ∧ (toastOf Outcome.noRecordings).title = "No recordings extracted"
    ∧ (∀ m, (toastOf (Outcome.parseFailure m)).title = "Error") :=
  ⟨rfl, rfl, rfl, rfl, fun _ => rfl⟩

/-- C3, counterexample: the claim says the fallback finds the first balanced
`[...]` span.  The regex `/\[[\s\S]*\]/` is greedy: on
`x ["a"] y ["b"] z` it matches from the first `[` to the last `]`, i.e.
`["a"] y ["b"]`, which is not valid JSON, so the pipeline fails with the
inner `SyntaxError` — even though the first balanced span `["a"]` is a valid
JSON array the claim says would be returned. -/
theorem claim_C3_counterexample :
    parseStage "x [\"a\"] y [\"b\"] z" = Except.error ParseErr.innerSyntax
    ∧ bracketMatch "x [\"a\"] y [\"b\"] z" = some "[\"a\"] y [\"b\"]"
    ∧ jsonParse "[\"a\"]" = some (Json.arr [Json.str "a"]) :=
  ⟨rfl, rfl, rfl⟩

/-- C3, amended: when the direct structured parse fails, the fallback
extracts the span from the first `[` through the last `]` of the response
(the greedy `/\[[\s\S]*\]/` match) and structured-parses that substring;
whenever that span is itself valid JSON — in particular for a single JSON
array embedded in surrounding prose — its value is returned. -/
theorem claim_C3_amended (s : String) (pre mid post : List Char) (v : Json)
    (hs : s.toList = pre ++ '[' :: (mid ++ ']' :: post))
    (hpre : ('[' : Char) ∉ pre) (hpost : (']' : Char) ∉ post)
    (hdirect : jsonParse s = none)
    (hinner : jsonParse (String.mk ('[' :: (mid ++ [']']))) = some v) :
    bracketMatch s = some (String.mk ('[' :: (mid ++ [']'])))
    ∧ parseStage s = Except.ok v := by
  have hbm : bracketMatch s = some (String.mk ('[' :: (mid ++ [']']))) := by
    unfold bracketMatch
    rw [hs, bracketSpan_decomp _ _ _ hpre hpost]
    rfl
  refine ⟨hbm, ?_⟩
  unfold parseStage
  rw [hdirect, hbm]
  simp [hinner]

/-- C3, witness for the amended claim: a JSON array embedded in prose is
extracted and parsed. -/
theorem claim_C3_amended_witness :
    "Here is the data: [\"a\"] Thanks".toList =
      "Here is the data: ".toList ++ '[' :: ("\"a\"".toList ++ ']' :: " Thanks".toList)
    ∧ (('[' : Char) ∉ "Here is the data: ".toList)
    ∧ ((']' : Char) ∉ " Thanks".toList)
    ∧ jsonParse "Here is the data: [\"a\"] Thanks" = none
    ∧ jsonParse (String.mk ('[' :: ("\"a\"".toList ++ [']']))) =
        some (Json.arr [Json.str "a"])
    ∧ parseStage "Here is the data: [\"a\"] Thanks" =
        Except.ok (Json.arr [Json.str "a"]) :=
  ⟨rfl, by decide, by decide, rfl, rfl,
    (claim_C3_amended "Here is the data: [\"a\"] Thanks" "Here is the data: ".toList
      "\"a\"".toList " Thanks".toList (Json.arr [Json.str "a"])
      rfl (by decide) (by decide) rfl rfl).2⟩

/-- C4, confirmed: for a response from which no array is recoverable the run
never aborts the host — `processAIResponse` is a total function into
`ProcessResult` — and returns an error result with no backend request.  When
the regex finds no `[...]` span at all, the result carries the thrown
diagnostic whose message embeds the original response truncated to 200
characters; when a span is found but is not valid JSON, the result is the
caught inner `SyntaxError`. -/
theorem claim_C4 (u : String) (ok : Bool) (st : Nat) (tx : String)
    (response : String) (hdirect : jsonParse response = none) :
    (bracketMatch response = none →
      processAIResponse u ok st tx response =
        ⟨none, [], Outcome.parseFailure
          ("Could not parse AI response as JSON. Raw response: " ++
            response.take 200)⟩)
    ∧ (∀ m, bracketMatch response = some m → jsonParse m = none →
        processAIResponse u ok st tx response =
          ⟨none, [], Outcome.innerSyntaxFailure⟩) := by
  constructor
  · intro hbm
    unfold processAIResponse parseStage
    rw [hdirect, hbm]
  · intro m hbm hm
    unfold processAIResponse parseStage
    rw [hdirect, hbm]
    simp [hm]

/-- C4, witness: a prose response with no bracketed span ends in the
`parseFailure` outcome carrying the truncated response, with nothing sent. -/
theorem claim_C4_witness :
    jsonParse "The page contains no recordings at all" = none
    ∧ bracketMatch "The page contains no recordings at all" = none
    ∧ processAIResponse "http://localhost:5173" true 200 ""
        "The page contains no recordings at all" =
      ⟨none, [], Outcome.parseFailure
        ("Could not parse AI response as JSON. Raw response: " ++
          "The page contains no recordings at all".take 200)⟩ :=
  ⟨rfl, rfl,
    (claim_C4 "http://localhost:5173" true 200 ""
      "The page contains no recordings at all" rfl).1 rfl⟩

/-- C5, confirmed: a response whose structured parse yields a single JSON
object (not an array) is wrapped into a one-element list, so the downstream
stages see a list: that singleton is both put into component state and sent
as the `recordings` array of the POST body. -/
theorem claim_C5 (u : String) (ok : Bool) (st : Nat) (tx : String)
    (response : String) (fields : List (String × Json))
    (hp : parseStage response = Except.ok (Json.obj fields)) :
    (processAIResponse u ok st tx response).recordings = [Json.obj fields]
    ∧ (processAIResponse u ok st tx response).sent =
      some ⟨u ++ "/api/recordings",
        Json.obj [("recordings", Json.arr [Json.obj fields])]⟩ := by
  unfold processAIResponse
  rw [hp]
  cases ok <;> simp [jsArrayOf]

/-- C5, witness: a single candidate object is wrapped and sent as a
one-element `recordings` array. -/
theorem claim_C5_witness :
    parseStage "\x7b\"composer\": \"Bach\", \"work\": \"Mass in B minor\"\x7d" =
      Except.ok (Json.obj [("composer", Json.str "Bach"),
        ("work", Json.str "Mass in B minor")])
    ∧ (processAIResponse "http://localhost:5173" true 200 ""
        "\x7b\"composer\": \"Bach\", \"work\": \"Mass in B minor\"\x7d").recordings =
      [Json.obj [("composer", Json.str "Bach"), ("work", Json.str "Mass in B minor")]]
    ∧ (processAIResponse "http://localhost:5173" true 200 ""
        "\x7b\"composer\": \"Bach\", \"work\": \"Mass in B minor\"\x7d").sent =
      some ⟨"http://localhost:5173/api/recordings",
        Json.obj [("recordings", Json.arr [Json.obj [("composer", Json.str "Bach"),
          ("work", Json.str "Mass in B minor")]])]⟩ :=
  ⟨rfl,
    (claim_C5 "http://localhost:5173" true 200 ""
      "\x7b\"composer\": \"Bach\", \"work\": \"Mass in B minor\"\x7d"
      [("composer", Json.str "Bach"), ("work", Json.str "Mass in B minor")] rfl).1,
    (claim_C5 "http://localhost:5173" true 200 ""
      "\x7b\"composer\": \"Bach\", \"work\": \"Mass in B minor\"\x7d"
      [("composer", Json.str "Bach"), ("work", Json.str "Mass in B minor")] rfl).2⟩

/-- C6, confirmed: whenever parsing succeeds and the (wrapped) candidate list
is non-empty, the ingestion entry point is invoked at
`backendUrl ++ "/api/recordings"` with a JSON body of exactly the shape
`{ recordings: [...] }`, the one `recordings` field holding the parsed
candidate list. -/
theorem claim_C6 (u : String) (ok : Bool) (st : Nat) (tx : String)
    (response : String) (v : Json)
    (hp : parseStage response = Except.ok v) (hne : jsArrayOf v ≠ []) :
    (processAIResponse u ok st tx response).sent =
      some ⟨u ++ "/api/recordings",
        Json.obj [("recordings", Json.arr (jsArrayOf v))]⟩ := by
  unfold processAIResponse
  rw [hp]
  have h0 : (jsArrayOf v).length ≠ 0 := by simpa [List.length_eq_zero] using hne
  cases ok <;> simp [h0]

/-- C6, witness at the parsed list `[true]`. -/
theorem claim_C6_witness :
    parseStage "[true]" = Except.ok (Json.arr [Json.bool true])
    ∧ jsArrayOf (Json.arr [Json.bool true]) ≠ []
    ∧ (processAIResponse "http://localhost:5173" true 200 "" "[true]").sent =
      some ⟨"http://localhost:5173/api/recordings",
        Json.obj [("recordings", Json.arr [Json.bool true])]⟩ :=
  ⟨rfl, by simp [jsArrayOf],
    claim_C6 "http://localhost:5173" true 200 "" "[true]" (Json.arr [Json.bool true])
      rfl (by simp [jsArrayOf])⟩

/-- C7, confirmed (backend filter modelled from the spec): an absent filter
imposes no constraint; a supplied filter matches exactly when it is a
case-insensitive substring of the field; supplied filters are ANDed over the
stored rows; an empty search-form field sends no filter; and the concrete
lowercase query `composer=beethoven` matches the stored composer
`Ludwig van Beethoven`. -/
theorem claim_C7 :
    (∀ db, queryRecordings db none none none = db)
    ∧ (∀ (f s : String), filterMatches (some f) s = true ↔
        (f.toList.map Char.toLower) <:+: (s.toList.map Char.toLower))
    ∧ (∀ db c w l r, r ∈ queryRecordings db c w l ↔
        r ∈ db ∧ filterMatches c r.composer = true
          ∧ filterMatches w r.work = true ∧ filterMatches l r.label = true)
    ∧ (∀ db, searchRecordings db "" "" "" = db)
    ∧ searchRecordings
        [⟨"Ludwig van Beethoven", "Symphony No. 5 in C minor", "Deutsche Grammophon"⟩]
        "beethoven" "" ""
      = [⟨"Ludwig van Beethoven", "Symphony No. 5 in C minor", "Deutsche Grammophon"⟩] := by
  refine ⟨?_, ?_, ?_, ?_, by decide⟩
  · intro db
    simp [queryRecordings, filterMatches]
  · intro f s
    exact containsSub_iff _ _
  · intro db c w l r
    simp [queryRecordings, List.mem_filter, Bool.and_eq_true, and_assoc]
  · intro db
    simp [searchRecordings, paramOfField, queryRecordings, filterMatches]

/-- C8, confirmed: the prompt handed to the AI step contains the fetched HTML
truncated to its first 3000 characters — so content past that limit never
reaches extraction, and two pages agreeing on their first 3000 characters
produce the same prompt — and while the HTML has not loaded the prompt is
built with the placeholder `Loading...` instead. -/
theorem claim_C8 :
    (∀ h : String, h ≠ "" → aiPrompt (some h) = promptText (h.take 3000))
    ∧ aiPrompt none = promptText "Loading..."
    ∧ (∀ h1 h2 : String, h1 ≠ "" → h2 ≠ "" → h1.take 3000 = h2.take 3000 →
        aiPrompt (some h1) = aiPrompt (some h2)) := by
  refine ⟨?_, rfl, ?_⟩
  · intro h hh
    simp [aiPrompt, hh]
  · intro h1 h2 h1h h2h he
    simp [aiPrompt, h1h, h2h, he]

/-- C8, witness at a small loaded page. -/
theorem claim_C8_witness :
    ("<html>page</html>" ≠ "")
    ∧ aiPrompt (some "<html>page</html>") = promptText ("<html>page</html>".take 3000) :=
  ⟨by decide, claim_C8.1 "<html>page</html>" (by decide)⟩

/-- C9, confirmed: a response whose direct parse yields a JSON value that is
neither an array nor an object — a string, number, boolean, or null — is
still wrapped into a one-element list, and since that list is non-empty it is
POSTed to the backend as the `recordings` array without any shape validation,
with the success toast reporting 1 saved. -/
theorem claim_C9 (u : String) (ok : Bool) (st : Nat) (tx : String)
    (response : String) (v : Json)
    (hp : jsonParse response = some v)
    (harr : ∀ l, v ≠ Json.arr l) (hobj : ∀ f, v ≠ Json.obj f) :
    (processAIResponse u ok st tx response).sent =
      some ⟨u ++ "/api/recordings", Json.obj [("recordings", Json.arr [v])]⟩
    ∧ (ok = true → (processAIResponse u ok st tx response).outcome =
        Outcome.saved 1) := by
  have hps : parseStage response = Except.ok v := by
    unfold parseStage
    rw [hp]
  have hwrap : jsArrayOf v = [v] := by
    cases v with
    | null => rfl
    | bool b => rfl
    | num q => rfl
    | str s => rfl
    | arr l => exact absurd rfl (harr l)
    | obj f => exact absurd rfl (hobj f)
  unfold processAIResponse
  rw [hps]
  cases ok <;> simp [hwrap]

/-- C9, witness at the primitive response `true`. -/
theorem claim_C9_witness :
    jsonParse "true" = some (Json.bool true)
    ∧ (processAIResponse "http://localhost:5173" true 200 "" "true").sent =
      some ⟨"http://localhost:5173/api/recordings",
        Json.obj [("recordings", Json.arr [Json.bool true])]⟩
    ∧ (processAIResponse "http://localhost:5173" true 200 "" "true").outcome =
      Outcome.saved 1 :=
  ⟨rfl,
    (claim_C9 "http://localhost:5173" true 200 "" "true" (Json.bool true)
      rfl (fun _ hcontra => by cases hcontra) (fun _ hcontra => by cases hcontra)).1,
    (claim_C9 "http://localhost:5173" true 200 "" "true" (Json.bool true)
      rfl (fun _ hcontra => by cases hcontra) (fun _ hcontra => by cases hcontra)).2 rfl⟩

/-- C10, confirmed: with the `backendUrl` preference unset or empty, the
scrape command falls back to `http://localhost:5173` while the
browse-collection command falls back to `http://localhost:5000`, so under
identical configuration the two commands target different backends. -/
theorem claim_C10 (pref : Option String) (h : pref = none ∨ pref = some "") :
    scrapeBackendUrl pref = "http://localhost:5173"
    ∧ browseBackendUrl pref = "http://localhost:5000"
    ∧ scrapeBackendUrl pref ≠ browseBackendUrl pref := by
  rcases h with rfl | rfl
  · exact ⟨rfl, rfl, by decide⟩
  · exact ⟨by decide, by decide, by decide⟩

/-- C10, witness at the unset preference. -/
theorem claim_C10_witness :
    ((none : Option String) = none ∨ (none : Option String) = some "")
    ∧ (scrapeBackendUrl none = "http://localhost:5173"
      ∧ browseBackendUrl none = "http://localhost:5000"
      ∧ scrapeBackendUrl none ≠ browseBackendUrl none) :=
  ⟨Or.inl rfl, claim_C10 none (Or.inl rfl)⟩

end Repertoire
